import Mathlib

/-
Verification of the turn-orchestration core of an MCP chat client
(src/client.py, src/lab_llm.py).  The Python code is shallowly embedded:
JSON values and the subset of json.loads behaviour the code relies on are
modelled explicitly, Python string operations (find, replace, strip,
startswith, slicing) are modelled over character lists, and the fallible
dispatch code is modelled with Except.  Braces inside string literals are
written with hexadecimal escapes.
-/

/-! ## JSON values and a model of json.loads -/

/-- JSON values as produced by Python json.loads.  Objects keep their
key/value pairs in parse order (Python dict insertion order; duplicate keys
are resolved to the last occurrence at lookup time, as dict construction
overwrites).  Numbers keep sign, integer part, fractional digits and
exponent, which is enough to decide Python truthiness. -/
inductive Json where
  | null
  | bool (b : Bool)
  | num (neg : Bool) (ip : Nat) (frac : List Char) (ex : Int)
  | str (s : String)
  | arr (elems : List Json)
  | obj (kvs : List (String × Json))

/-- JSON inter-token whitespace accepted by the Python json scanner. -/
def jsonWsChar (c : Char) : Bool :=
  c = ' ' || c = '\t' || c = '\n' || c = '\r'

def skipWs (cs : List Char) : List Char :=
  cs.dropWhile jsonWsChar

def hexVal (c : Char) : Option Nat :=
  if '0' ≤ c ∧ c ≤ '9' then some (c.toNat - '0'.toNat)
  else if 'a' ≤ c ∧ c ≤ 'f' then some (c.toNat - 'a'.toNat + 10)
  else if 'A' ≤ c ∧ c ≤ 'F' then some (c.toNat - 'A'.toNat + 10)
  else none

def digitsToNat (ds : List Char) : Nat :=
  ds.foldl (fun n c => n * 10 + (c.toNat - '0'.toNat)) 0

/-- JSON string body (after the opening quote), with the standard escapes.
Raw control characters are rejected (json.loads strict mode); a \uXXXX
escape denoting a surrogate code unit is rejected (lone-surrogate decoding
is not modelled, no claim depends on it). -/
def parseStr : Nat → List Char → Option (List Char × List Char)
  | 0, _ => none
  | fuel+1, cs =>
    match cs with
    | [] => none
    | c :: rest =>
      if c = '"' then some ([], rest)
      else if c = '\\' then
        match rest with
        | [] => none
        | e :: rest2 =>
          if e = '"' then (parseStr fuel rest2).map (fun pr => ('"' :: pr.1, pr.2))
          else if e = '\\' then (parseStr fuel rest2).map (fun pr => ('\\' :: pr.1, pr.2))
          else if e = '/' then (parseStr fuel rest2).map (fun pr => ('/' :: pr.1, pr.2))
          else if e = 'b' then (parseStr fuel rest2).map (fun pr => ('\x08' :: pr.1, pr.2))
          else if e = 'f' then (parseStr fuel rest2).map (fun pr => ('\x0c' :: pr.1, pr.2))
          else if e = 'n' then (parseStr fuel rest2).map (fun pr => ('\n' :: pr.1, pr.2))
          else if e = 'r' then (parseStr fuel rest2).map (fun pr => ('\r' :: pr.1, pr.2))
          else if e = 't' then (parseStr fuel rest2).map (fun pr => ('\t' :: pr.1, pr.2))
          else if e = 'u' then
            match rest2 with
            | h1 :: h2 :: h3 :: h4 :: rest3 =>
              match hexVal h1, hexVal h2, hexVal h3, hexVal h4 with
              | some a, some b, some c2, some d =>
                let v := ((a * 16 + b) * 16 + c2) * 16 + d
                if v < 0xd800 then
                  (parseStr fuel rest3).map (fun pr => (Char.ofNat v :: pr.1, pr.2))
                else if 0xdfff < v then
                  (parseStr fuel rest3).map (fun pr => (Char.ofNat v :: pr.1, pr.2))
                else none
              | _, _, _, _ => none
            | _ => none
          else none
      else if c.toNat < 0x20 then none
      else (parseStr fuel rest).map (fun pr => (c :: pr.1, pr.2))

def parseExp (neg : Bool) (ip : Nat) (frac : List Char) (r : List Char) :
    Option (Json × List Char) :=
  let sr : Bool × List Char :=
    match r with
    | '+' :: rr => (false, rr)
    | '-' :: rr => (true, rr)
    | _ => (false, r)
  let es := sr.2.takeWhile Char.isDigit
  if es = [] then none
  else
    let ev : Int := if sr.1 then -(digitsToNat es : Int) else (digitsToNat es : Int)
    some (Json.num neg ip frac ev, sr.2.drop es.length)

def finishNum (neg : Bool) (ip : Nat) (frac : List Char) (rest : List Char) :
    Option (Json × List Char) :=
  match rest with
  | 'e' :: r => parseExp neg ip frac r
  | 'E' :: r => parseExp neg ip frac r
  | _ => some (Json.num neg ip frac 0, rest)

/-- JSON number grammar: optional minus, integer part without leading
zeros, optional fraction, optional exponent. -/
def parseNum (cs : List Char) : Option (Json × List Char) :=
  let sc : Bool × List Char :=
    match cs with
    | '-' :: r => (true, r)
    | _ => (false, cs)
  let ds := sc.2.takeWhile Char.isDigit
  if ds = [] then none
  else if 1 < ds.length ∧ ds.head? = some '0' then none
  else
    let ip := digitsToNat ds
    let rest1 := sc.2.drop ds.length
    match rest1 with
    | '.' :: r =>
      let fs := r.takeWhile Char.isDigit
      if fs = [] then none
      else finishNum sc.1 ip fs (r.drop fs.length)
    | _ => finishNum sc.1 ip [] rest1

mutual

def parseValue : Nat → List Char → Option (Json × List Char)
  | 0, _ => none
  | fuel+1, cs =>
    match skipWs cs with
    | [] => none
    | c :: rest =>
      if c = 'n' then
        match rest with
        | 'u' :: 'l' :: 'l' :: r => some (Json.null, r)
        | _ => none
      else if c = 't' then
        match rest with
        | 'r' :: 'u' :: 'e' :: r => some (Json.bool true, r)
        | _ => none
      else if c = 'f' then
        match rest with
        | 'a' :: 'l' :: 's' :: 'e' :: r => some (Json.bool false, r)
        | _ => none
      else if c = '"' then
        (parseStr fuel rest).map (fun pr => (Json.str (String.mk pr.1), pr.2))
      else if c = '\x7b' then
        parseObj fuel (skipWs rest)
      else if c = '[' then
        parseArr fuel (skipWs rest)
      else
        parseNum (c :: rest)

def parseObj : Nat → List Char → Option (Json × List Char)
  | 0, _ => none
  | fuel+1, cs =>
    match cs with
    | '\x7d' :: rest => some (Json.obj [], rest)
    | _ => parseMembers fuel cs []

def parseMembers : Nat → List Char → List (String × Json) → Option (Json × List Char)
  | 0, _, _ => none
  | fuel+1, cs, acc =>
    match cs with
    | '"' :: rest =>
      match parseStr fuel rest with
      | some (k, r1) =>
        match skipWs r1 with
        | ':' :: r2 =>
          match parseValue fuel r2 with
          | some (v, r3) =>
            match skipWs r3 with
            | ',' :: r4 => parseMembers fuel (skipWs r4) (acc ++ [(String.mk k, v)])
            | '\x7d' :: r4 => some (Json.obj (acc ++ [(String.mk k, v)]), r4)
            | _ => none
          | none => none
        | _ => none
      | none => none
    | _ => none

def parseArr : Nat → List Char → Option (Json × List Char)
  | 0, _ => none
  | fuel+1, cs =>
    match cs with
    | ']' :: rest => some (Json.arr [], rest)
    | _ => parseElems fuel cs []

def parseElems : Nat → List Char → List Json → Option (Json × List Char)
  | 0, _, _ => none
  | fuel+1, cs, acc =>
    match parseValue fuel cs with
    | some (v, r1) =>
      match skipWs r1 with
      | ',' :: r2 => parseElems fuel r2 (acc ++ [v])
      | ']' :: r2 => some (Json.arr (acc ++ [v]), r2)
      | _ => none
    | none => none

end

/-- Model of Python json.loads on a whole document: parse one value with
surrounding whitespace and require the input to be fully consumed.  The
fuel bound is generous; every recursive step makes progress on the input. -/
def json_loads (s : String) : Option Json :=
  match parseValue (4 * (s.data.length + 1)) s.data with
  | some (v, rest) => if skipWs rest = [] then some v else none
  | none => none

/-! ## Python value helpers -/

/-- Python truthiness of a JSON-decoded value: None, False, numeric zero,
empty string, empty list and empty dict are falsy. -/
def truthy : Json → Bool
  | Json.null => false
  | Json.bool b => b
  | Json.num _ ip frac _ => !(ip == 0 && frac.all (fun c => c = '0'))
  | Json.str s => !(s == "")
  | Json.arr elems => !elems.isEmpty
  | Json.obj kvs => !kvs.isEmpty

def optTruthy : Option Json → Bool
  | none => false
  | some v => truthy v

/-- Python dict lookup on the key/value list of a JSON object: duplicate
keys are overwritten during dict construction, so the last binding wins. -/
def lookupLast (kvs : List (String × Json)) (k : String) : Option Json :=
  match kvs with
  | [] => none
  | (k1, v) :: rest =>
    match lookupLast rest k with
    | some w => some w
    | none => if k1 = k then some v else none

def Json.isStr : Json → Bool
  | Json.str _ => true
  | _ => false

def Json.isObj : Json → Bool
  | Json.obj _ => true
  | _ => false

/-! ## Python string operations -/

/-- Python str.strip default whitespace. -/
def pyWsChar (c : Char) : Bool :=
  c = ' ' || c = '\t' || c = '\n' || c = '\r' || c = '\x0b' || c = '\x0c'

/-- Model of str.strip(): drop whitespace from both ends. -/
def pyStrip (s : String) : String :=
  String.mk (((s.data.dropWhile pyWsChar).reverse.dropWhile pyWsChar).reverse)

/-- First index at which m occurs as a contiguous sublist of s. -/
def findSub (m : List Char) : List Char → Option Nat
  | [] => if m.isPrefixOf ([] : List Char) then some 0 else none
  | c :: t =>
    if m.isPrefixOf (c :: t) then some 0
    else (findSub m t).map (fun i => i + 1)

/-- Model of str.find(sub): index of the first occurrence, none for -1. -/
def pyFind (s sub : String) : Option Nat :=
  findSub sub.data s.data

/-- Model of the slice s[i:]. -/
def pyDrop (s : String) (i : Nat) : String :=
  String.mk (s.data.drop i)

/-- Model of the slice s[:i]. -/
def pyTake (s : String) (i : Nat) : String :=
  String.mk (s.data.take i)

/-- Model of str.startswith. -/
def pyStartsWith (s pre : String) : Bool :=
  pre.data.isPrefixOf s.data

/-- Left-to-right scan of str.replace(old, new): each non-overlapping
occurrence of old is replaced and scanning resumes after it.  Fuel is the
length of the scanned list, enough since every step consumes a character.
The code under verification only calls this with a non-empty old. -/
def replaceAux (old new : List Char) : Nat → List Char → List Char
  | 0, s => s
  | fuel+1, s =>
    match s with
    | [] => []
    | c :: t =>
      if old.isPrefixOf (c :: t) && !old.isEmpty then
        new ++ replaceAux old new fuel (List.drop old.length (c :: t))
      else
        c :: replaceAux old new fuel t

/-- Model of str.replace(old, new), replacing every occurrence. -/
def pyReplace (s old new : String) : String :=
  String.mk (replaceAux old.data new.data s.data.length s.data)

/-- Substring containment test (used to state what an error string does
not carry). -/
def strContains (s sub : String) : Bool :=
  (findSub sub.data s.data).isSome

/-- The substring sub occurs somewhere in s. -/
def occursIn (sub s : String) : Prop :=
  ∃ i, sub.data.isPrefixOf (s.data.drop i) = true

/-! ## Response parser (src/lab_llm.py, LabLLM.chat_completion lines 83-138) -/

/-- A conversation message as built by the code: role, optional textual
content, optional structured call intent, optional function name (present
only on function-result messages). -/
structure Message where
  role : String
  content : Option String
  function_call : Option Json := none
  name : Option String := none

/-- Result of parsing one backend answer: the assistant message appended
to the conversation, together with the reasoning text that gets logged
(logger.info is invoked only when the reasoning text is truthy). -/
structure ChatResult where
  message : Message
  reasoningLog : Option String

/-- The literal marker searched for in the backend answer. -/
def fcMarker : String := "\x7b\"function_call\":"

/-- Priority check: find the marker, parse from its offset to the end; on
a mapping containing "function_call" return the value and the stripped
leading text. -/
def markerScan (answer : String) : Option Json × Option String :=
  match pyFind answer fcMarker with
  | some j =>
    match json_loads (pyStrip (pyDrop answer j)) with
    | some (Json.obj kvs) =>
      match lookupLast kvs "function_call" with
      | some v => (some v, some (pyStrip (pyTake answer j)))
      | none => (none, none)
    | _ => (none, none)
  | none => (none, none)

/-- Secondary check: parse the whole answer as JSON and look for a mapping
with key "function_call". -/
def wholeScan (answer : String) : Option Json :=
  match json_loads answer with
  | some (Json.obj kvs) => lookupLast kvs "function_call"
  | _ => none

/-- The parsing and message structuring of LabLLM.chat_completion.
allowCall is the value of (function_call != "none").  The secondary check
runs when the priority check produced nothing truthy; the final message is
a call-intent message only when the accumulated parse result is truthy,
otherwise the whole answer verbatim becomes the content. -/
def chatParse (allowCall : Bool) (answer : String) : ChatResult :=
  let s1 := if allowCall then markerScan answer else (none, none)
  let pfc :=
    if allowCall && !(optTruthy s1.1) then
      match wholeScan answer with
      | some v => some v
      | none => s1.1
    else s1.1
  if optTruthy pfc then
    { message := { role := "assistant", content := none, function_call := pfc, name := none },
      reasoningLog :=
        match s1.2 with
        | some r => if r = "" then none else some r
        | none => none }
  else
    { message := { role := "assistant", content := some answer, function_call := none, name := none },
      reasoningLog := none }

/-! ## Completion adapter (src/lab_llm.py, chat_completion lines 58-138) -/

/-- The observable part of the HTTP response from requests.post. -/
structure HttpResponse where
  status : Nat
  text : String

/-- The HTTP-response handling of chat_completion: a non-200 status logs
the raw body and raises Exception("LabLLM error: <status>"); on success
the body is decoded as JSON, the "answer" field (default "") is extracted
and handed to the parser.  The returned list collects logger.error lines.
A body that is not a JSON mapping with a string answer raises in Python
(response.json() / attribute access); this is modelled as an error. -/
def labChatCompletion (functionCall : String) (resp : HttpResponse) :
    Except String ChatResult × List String :=
  if resp.status ≠ 200 then
    (Except.error ("LabLLM error: " ++ toString resp.status),
     ["LabLLM API error: " ++ resp.text])
  else
    match json_loads resp.text with
    | none => (Except.error "JSONDecodeError", [])
    | some (Json.obj kvs) =>
      match (lookupLast kvs "answer").getD (Json.str "") with
      | Json.str a => (Except.ok (chatParse (functionCall ≠ "none") a), [])
      | _ => (Except.error "TypeError", [])
    | some _ => (Except.error "AttributeError", [])

/-! ## Capability registry and schema projection (src/client.py lines 94-119) -/

structure Tool where
  name : String
  description : String
  inputSchema : Json

structure Resource where
  name : String
  description : String
  uri : String

structure Prompt where
  name : String
  description : String

structure FunctionSchema where
  name : String
  description : String
  parameters : Json

/-- The zero-parameter schema used for resources and prompts. -/
def emptyParams : Json :=
  Json.obj [("type", Json.str "object"), ("properties", Json.obj [])]

/-- The merged callable-schema list built in process_query: starting from
an empty list, each tool, then each resource, then each prompt appends one
function schema. -/
def buildFunctions (tools : List Tool) (resources : List Resource) (prompts : List Prompt) :
    List FunctionSchema :=
  let fs1 := tools.foldl
    (fun acc t => acc ++ [{ name := t.name, description := t.description,
                            parameters := t.inputSchema }]) []
  let fs2 := resources.foldl
    (fun acc r => acc ++ [{ name := "get_resource_" ++ r.name,
                            description := "Access resource: " ++ r.name ++ ". " ++ r.description,
                            parameters := emptyParams }]) fs1
  prompts.foldl
    (fun acc p => acc ++ [{ name := "use_prompt_" ++ p.name,
                            description := "Use predefined prompt: " ++ p.name ++ ". " ++ p.description,
                            parameters := emptyParams }]) fs2

/-- Spec-shaped projection of one tool. -/
def projTool (t : Tool) : FunctionSchema :=
  { name := t.name, description := t.description, parameters := t.inputSchema }

/-- Spec-shaped projection of one resource. -/
def projResource (r : Resource) : FunctionSchema :=
  { name := "get_resource_" ++ r.name,
    description := "Access resource: " ++ r.name ++ ". " ++ r.description,
    parameters := emptyParams }

/-- Spec-shaped projection of one prompt. -/
def projPrompt (p : Prompt) : FunctionSchema :=
  { name := "use_prompt_" ++ p.name,
    description := "Use predefined prompt: " ++ p.name ++ ". " ++ p.description,
    parameters := emptyParams }

/-! ## Dispatcher (src/client.py, process_query lines 132-178) -/

structure Registry where
  tools : List Tool
  resources : List Resource
  prompts : List Prompt

structure ContentItem where
  text : String

structure ReadResult where
  contents : List ContentItem

structure PromptResult where
  text : Option String
  repr : String

structure ToolResult where
  content : Option String

/-- The capability provider operations invoked during dispatch (session
methods read_resource, get_prompt, call_tool). -/
structure Provider where
  readResource : String → ReadResult
  getPrompt : String → PromptResult
  callTool : String → Json → ToolResult

/-- Trace of provider operations performed by one dispatch. -/
inductive ProviderCall where
  | readResource (uri : String)
  | getPrompt (name : String)
  | callTool (name : String) (args : Json)

/-- Argument normalization (lines 139-147): a string is json.loads-ed
again unless empty, a failed parse and every non-string non-dict value
default to an empty mapping, a dict passes through. -/
def normalizeArgs (fnArgs : Json) : Json :=
  match fnArgs with
  | Json.str s =>
    if s = "" then Json.obj []
    else
      match json_loads s with
      | some a => a
      | none => Json.obj []
  | Json.obj kvs => Json.obj kvs
  | _ => Json.obj []

/-- fn_name.replace("get_resource_", ""): strips every occurrence. -/
def stripResourceName (fnName : String) : String :=
  pyReplace fnName "get_resource_" ""

/-- fn_name.replace("use_prompt_", ""): strips every occurrence. -/
def stripPromptName (fnName : String) : String :=
  pyReplace fnName "use_prompt_" ""

/-- The fixed instruction text concatenated after the dispatch result when
the function message is appended (line 177). -/
def resultSuffix : String :=
  "Show these results in natural language. State that nothing has been retrieved if that is the case."

/-- The function-result message appended to the conversation. -/
def mkFnMsg (fnName content : String) : Message :=
  { role := "function", content := some (content ++ resultSuffix),
    function_call := none, name := some fnName }

/-- Modelled Python AttributeError raised when a non-mapping call intent
receives .get. -/
def attrErrGet : String := "AttributeError: get"

/-- Modelled Python AttributeError raised when fn_name is None (or any
non-string) and .startswith is invoked on it. -/
def attrErrStartswith : String := "AttributeError: startswith"

/-- One dispatch result: the function name, the normalized textual
payload, the provider calls performed, and the message appended. -/
structure DispatchOut where
  fnName : String
  resultContent : String
  calls : List ProviderCall
  appended : Message

/-- The dispatch block of process_query (lines 132-178): extract name and
arguments from the call intent, normalize arguments, then route by name
to the resource / prompt / tool execution path and build the appended
function message.  Python exceptions are modelled as Except.error. -/
def dispatchIntent (reg : Registry) (prov : Provider) (fnCall : Json) :
    Except String DispatchOut :=
  match fnCall with
  | Json.obj kvs =>
    let args := normalizeArgs ((lookupLast kvs "arguments").getD (Json.obj []))
    match lookupLast kvs "name" with
    | some (Json.str fnName) =>
      if pyStartsWith fnName "get_resource_" then
        let resName := stripResourceName fnName
        match reg.resources.find? (fun r => r.name == resName) with
        | none =>
          let msg := "Resource '" ++ resName ++ "' not found."
          Except.ok { fnName := fnName, resultContent := msg, calls := [],
                      appended := mkFnMsg fnName msg }
        | some r =>
          let rr := prov.readResource r.uri
          let msg :=
            match rr.contents with
            | [] => "Resource '" ++ resName ++ "' is empty or unreadable."
            | item :: _ => item.text
          Except.ok { fnName := fnName, resultContent := msg,
                      calls := [ProviderCall.readResource r.uri],
                      appended := mkFnMsg fnName msg }
      else if pyStartsWith fnName "use_prompt_" then
        let promptName := stripPromptName fnName
        let pr := prov.getPrompt promptName
        let msg := pr.text.getD pr.repr
        Except.ok { fnName := fnName, resultContent := msg,
                    calls := [ProviderCall.getPrompt promptName],
                    appended := mkFnMsg fnName msg }
      else
        let tr := prov.callTool fnName args
        let msg := tr.content.getD ""
        Except.ok { fnName := fnName, resultContent := msg,
                    calls := [ProviderCall.callTool fnName args],
                    appended := mkFnMsg fnName msg }
    | _ => Except.error attrErrStartswith
  | _ => Except.error attrErrGet

/-! ## Helper lemmas -/

lemma foldl_push_eq_map {α β : Type} (f : α → β) :
    ∀ (l : List α) (init : List β),
      l.foldl (fun acc x => acc ++ [f x]) init = init ++ l.map f := by
  intro l
  induction l with
  | nil => intro init; simp
  | cons a t ih => intro init; simp [ih]

/-- The imperative append loop of process_query equals the three mapped
projections in order. -/
lemma buildFunctions_eq (ts : List Tool) (rs : List Resource) (ps : List Prompt) :
    buildFunctions ts rs ps = ts.map projTool ++ rs.map projResource ++ ps.map projPrompt := by
  show List.foldl (fun acc p => acc ++ [projPrompt p])
      (List.foldl (fun acc r => acc ++ [projResource r])
        (List.foldl (fun acc t => acc ++ [projTool t]) [] ts) rs) ps = _
  rw [foldl_push_eq_map, foldl_push_eq_map, foldl_push_eq_map]
  simp

lemma strAppend_left_cancel {p a b : String} (h : p ++ a = p ++ b) : a = b := by
  have hd := congrArg String.data h
  rw [String.data_append, String.data_append] at hd
  cases a with
  | mk da =>
    cases b with
    | mk db =>
      simp only [List.append_cancel_left_eq] at hd
      exact congrArg String.mk hd

lemma getResource_ne_usePrompt (a b : String) :
    "get_resource_" ++ a ≠ "use_prompt_" ++ b := by
  intro h
  have hg : ("get_resource_" ++ a).data.head? = some 'g' := by
    rw [String.data_append]; rfl
  have hu : ("use_prompt_" ++ b).data.head? = some 'u' := by
    rw [String.data_append]; rfl
  rw [h, hu] at hg
  exact absurd hg (by decide)

/-- Claim C3: the schema projection maps, in insertion order (all tools,
then all resources, then all prompts), each tool to a schema named t.name
with parameters t.inputSchema verbatim, each resource to a zero-parameter
schema named "get_resource_" + r.name, and each prompt to a zero-parameter
schema named "use_prompt_" + p.name. -/
theorem c3_schema_projection_order (ts : List Tool) (rs : List Resource) (ps : List Prompt) :
    buildFunctions ts rs ps = ts.map projTool ++ rs.map projResource ++ ps.map projPrompt
    ∧ (∀ t : Tool, (projTool t).name = t.name ∧ (projTool t).parameters = t.inputSchema)
    ∧ (∀ r : Resource, (projResource r).name = "get_resource_" ++ r.name
        ∧ (projResource r).parameters = emptyParams)
    ∧ (∀ p : Prompt, (projPrompt p).name = "use_prompt_" ++ p.name
        ∧ (projPrompt p).parameters = emptyParams) :=
  ⟨buildFunctions_eq ts rs ps,
   fun _ => ⟨rfl, rfl⟩, fun _ => ⟨rfl, rfl⟩, fun _ => ⟨rfl, rfl⟩⟩

/-- Claim C4: for a registry with distinct names within each category and
no tool name colliding with a prefixed resource or prompt name, the
projected function-schema names are pairwise distinct. -/
theorem c4_projected_names_distinct (ts : List Tool) (rs : List Resource) (ps : List Prompt)
    (h1 : (ts.map Tool.name).Nodup)
    (h2 : (rs.map Resource.name).Nodup)
    (h3 : (ps.map Prompt.name).Nodup)
    (h4 : ∀ t ∈ ts, ∀ r ∈ rs, t.name ≠ "get_resource_" ++ r.name)
    (h5 : ∀ t ∈ ts, ∀ p ∈ ps, t.name ≠ "use_prompt_" ++ p.name) :
    ((buildFunctions ts rs ps).map FunctionSchema.name).Nodup := by
  rw [buildFunctions_eq]
  simp only [List.map_append, List.map_map]
  have e1 : (FunctionSchema.name ∘ projTool) = Tool.name := rfl
  have e2 : (FunctionSchema.name ∘ projResource) =
      (fun r : Resource => "get_resource_" ++ r.name) := rfl
  have e3 : (FunctionSchema.name ∘ projPrompt) =
      (fun p : Prompt => "use_prompt_" ++ p.name) := rfl
  rw [e1, e2, e3]
  have hB : (rs.map (fun r : Resource => "get_resource_" ++ r.name)).Nodup := by
    have : (fun r : Resource => "get_resource_" ++ r.name) =
        ((fun a : String => "get_resource_" ++ a) ∘ Resource.name) := rfl
    rw [this, ← List.map_map]
    exact h2.map (fun a b h => strAppend_left_cancel h)
  have hC : (ps.map (fun p : Prompt => "use_prompt_" ++ p.name)).Nodup := by
    have : (fun p : Prompt => "use_prompt_" ++ p.name) =
        ((fun a : String => "use_prompt_" ++ a) ∘ Prompt.name) := rfl
    rw [this, ← List.map_map]
    exact h3.map (fun a b h => strAppend_left_cancel h)
  have hBC : (rs.map (fun r : Resource => "get_resource_" ++ r.name)).Disjoint
      (ps.map (fun p : Prompt => "use_prompt_" ++ p.name)) := by
    intro a haB haC
    obtain ⟨r, _, hr⟩ := List.mem_map.1 haB
    obtain ⟨p, _, hp⟩ := List.mem_map.1 haC
    exact getResource_ne_usePrompt r.name p.name (hr.trans hp.symm)
  have hABC : (ts.map Tool.name).Disjoint
      (rs.map (fun r : Resource => "get_resource_" ++ r.name) ++
       ps.map (fun p : Prompt => "use_prompt_" ++ p.name)) := by
    intro a haA haBC2
    obtain ⟨t, ht, hta⟩ := List.mem_map.1 haA
    rcases List.mem_append.1 haBC2 with hmem | hmem
    · obtain ⟨r, hrmem, hr⟩ := List.mem_map.1 hmem
      exact h4 t ht r hrmem (hta.trans hr.symm)
    · obtain ⟨p, hpmem, hp⟩ := List.mem_map.1 hmem
      exact h5 t ht p hpmem (hta.trans hp.symm)
  rw [List.append_assoc]
  exact h1.append (hB.append hC hBC) hABC

/-- Witness for C4 at a concrete one-of-each registry. -/
theorem c4_witness :
    ((buildFunctions [{ name := "add", description := "d", inputSchema := Json.obj [] }]
        [{ name := "alpha", description := "d", uri := "mem:alpha" }]
        [{ name := "greet", description := "d" }]).map FunctionSchema.name).Nodup :=
  c4_projected_names_distinct _ _ _ (by decide) (by decide) (by decide)
    (by decide) (by decide)

lemma findSub_eq_some (m : List Char) :
    ∀ (i : Nat) (s : List Char),
      m.isPrefixOf (s.drop i) = true →
      (∀ j, j < i → m.isPrefixOf (s.drop j) = false) →
      findSub m s = some i := by
  intro i
  induction i with
  | zero =>
    intro s h1 _
    cases s with
    | nil => simp only [List.drop_zero] at h1; simp [findSub, h1]
    | cons c t => simp only [List.drop_zero] at h1; simp [findSub, h1]
  | succ n ih =>
    intro s h1 h2
    have h0 : m.isPrefixOf s = false := by
      have := h2 0 (Nat.succ_pos n)
      simpa using this
    cases s with
    | nil =>
      rw [List.drop_nil] at h1
      rw [h1] at h0
      exact absurd h0 (by decide)
    | cons c t =>
      have ha : m.isPrefixOf (t.drop n) = true := by simpa using h1
      have hb : ∀ j, j < n → m.isPrefixOf (t.drop j) = false := by
        intro j hj
        simpa using h2 (j + 1) (Nat.succ_lt_succ hj)
      simp [findSub, h0, ih t ha hb]

lemma head?_of_prefix {l₁ l₂ : List Char} (h : l₁ <+: l₂) (hne : l₁ ≠ []) :
    l₂.head? = l₁.head? := by
  obtain ⟨z, rfl⟩ := h
  cases l₁ with
  | nil => exact absurd rfl hne
  | cons a t => rfl

/-- An occurrence of the marker cannot straddle the boundary between a
prefix free of the marker and a tail that starts with the marker: the
marker opens with a brace and contains no other brace, while the tail's
first character is that brace. -/
lemma marker_no_straddle (p t : List Char)
    (hp : ∀ j, j < p.length → ¬ (fcMarker.data <+: p.drop j))
    (ht : fcMarker.data <+: t) :
    ∀ j, j < p.length → ¬ (fcMarker.data <+: (p ++ t).drop j) := by
  intro j hj hpre
  have hdrop : (p ++ t).drop j = p.drop j ++ t :=
    List.drop_append_of_le_length (le_of_lt hj)
  rw [hdrop] at hpre
  by_cases hlen : fcMarker.data.length ≤ (p.drop j).length
  · apply hp j hj
    have heq : fcMarker.data = (p.drop j ++ t).take fcMarker.data.length :=
      List.prefix_iff_eq_take.1 hpre
    rw [ List.take_append_of_le_length hlen] at heq
    rw [heq]
    exact List.take_prefix _ _
  · push_neg at hlen
    have hx : (p.drop j) <+: fcMarker.data :=
      List.prefix_of_prefix_length_le (List.prefix_append _ _) hpre (le_of_lt hlen)
    obtain ⟨y, hy⟩ := hx
    have hyt : y <+: t := by
      obtain ⟨z, hz⟩ := hpre
      rw [← hy, List.append_assoc] at hz
      exact ⟨z, List.append_cancel_left hz⟩
    have hypos : y ≠ [] := by
      intro h0
      rw [h0, List.append_nil] at hy
      rw [hy] at hlen
      exact lt_irrefl _ hlen
    have hth : t.head? = fcMarker.data.head? := head?_of_prefix ht (by decide)
    have hyh : t.head? = y.head? := head?_of_prefix hyt hypos
    have hydrop : y = fcMarker.data.drop (p.drop j).length := by
      rw [← hy, List.drop_left]
    have hk1 : 0 < (p.drop j).length := by
      rw [List.length_drop]; omega
    have hforbidden : ∀ k, k < fcMarker.data.length → 0 < k →
        (fcMarker.data.drop k).head? ≠ some '\x7b' := by decide
    have hhead : (fcMarker.data.drop (p.drop j).length).head? = some '\x7b' := by
      rw [← hydrop, ← hyh, hth]
      rfl
    exact hforbidden _ hlen hk1 hhead

/-- Claim C1 (amended): for a backend answer of the form prefix ++ tail
where the prefix contains no occurrence of the literal marker, the tail
begins with the literal marker, and the stripped tail parses as a JSON
mapping whose "function_call" value is truthy, the parser returns an
assistant turn whose call intent is that value and whose visible content
is empty, with the stripped prefix retained only as logged reasoning
(logged when non-empty). -/
theorem c1_marker_call_extraction (p t : String) (kvs : List (String × Json)) (v : Json)
    (hp : ∀ j, j < p.data.length → ¬ (fcMarker.data <+: p.data.drop j))
    (ht : fcMarker.data <+: t.data)
    (hparse : json_loads (pyStrip t) = some (Json.obj kvs))
    (hkey : lookupLast kvs "function_call" = some v)
    (htruthy : truthy v = true) :
    chatParse true (p ++ t) =
      { message := { role := "assistant", content := none, function_call := some v, name := none },
        reasoningLog := if pyStrip p = "" then none else some (pyStrip p) } := by
  have hfind : pyFind (p ++ t) fcMarker = some p.data.length := by
    unfold pyFind
    apply findSub_eq_some
    · rw [String.data_append, List.drop_left]
      exact ( List.isPrefixOf_iff_prefix).2 ht
    · intro j hj
      rw [String.data_append]
      have hns := marker_no_straddle p.data t.data hp ht j hj
      cases hb : fcMarker.data.isPrefixOf ((p.data ++ t.data).drop j) with
      | false => rfl
      | true => exact absurd (( List.isPrefixOf_iff_prefix).1 hb) hns
  have hdrop : pyDrop (p ++ t) p.data.length = t := by
    unfold pyDrop
    rw [String.data_append, List.drop_left]
  have htake : pyTake (p ++ t) p.data.length = p := by
    unfold pyTake
    rw [String.data_append, List.take_left]
  have hms : markerScan (p ++ t) = (some v, some (pyStrip p)) := by
    simp only [markerScan, hfind, hdrop, hparse, hkey, htake]
  simp only [chatParse, if_true, hms, optTruthy, htruthy, Bool.and_false, Bool.not_true]
  simp [optTruthy, htruthy]

/-- Witness for C1 at a concrete reasoning-plus-JSON answer. -/
theorem c1_witness :
    chatParse true ("I will call. " ++ "\x7b\"function_call\": \x7b\"name\": \"add\"\x7d\x7d") =
      { message := { role := "assistant", content := none,
                     function_call := some (Json.obj [("name", Json.str "add")]), name := none },
        reasoningLog := some "I will call." } := by
  have h := c1_marker_call_extraction "I will call. "
    "\x7b\"function_call\": \x7b\"name\": \"add\"\x7d\x7d"
    [("function_call", Json.obj [("name", Json.str "add")])]
    (Json.obj [("name", Json.str "add")])
    (by decide) (by decide) rfl rfl rfl
  rw [h]
  rfl

/-- Counterexample to C1 as stated: first, an answer whose JSON object
tail contains the key "function_call" but does not begin with the literal
marker (a space follows the brace) is returned verbatim as plain content,
not as a call intent; second, an answer whose marker-led value is the
falsy empty mapping is also returned verbatim. -/
theorem c1_counterexample :
    json_loads "\x7b \"function_call\": \x7b\"name\": \"f\"\x7d\x7d" =
      some (Json.obj [("function_call", Json.obj [("name", Json.str "f")])])
    ∧ truthy (Json.obj [("name", Json.str "f")]) = true
    ∧ chatParse true ("Hello. " ++ "\x7b \"function_call\": \x7b\"name\": \"f\"\x7d\x7d") =
        { message := { role := "assistant",
                       content := some ("Hello. " ++ "\x7b \"function_call\": \x7b\"name\": \"f\"\x7d\x7d"),
                       function_call := none, name := none },
          reasoningLog := none }
    ∧ chatParse true "ok \x7b\"function_call\": \x7b\x7d\x7d" =
        { message := { role := "assistant",
                       content := some "ok \x7b\"function_call\": \x7b\x7d\x7d",
                       function_call := none, name := none },
          reasoningLog := none } :=
  ⟨rfl, rfl, rfl, rfl⟩

/-- Claim C2: the response parser totally handles any input text (it is a
total function); when the JSON after the marker is malformed it falls
through to parsing the whole text, and when that also fails the full text
is returned verbatim as the assistant content with no call intent. -/
theorem c2_fallthrough_verbatim (allowCall : Bool) (answer : String)
    (hmarker : ∀ j, pyFind answer fcMarker = some j →
      json_loads (pyStrip (pyDrop answer j)) = none)
    (hwhole : json_loads answer = none) :
    chatParse allowCall answer =
      { message := { role := "assistant", content := some answer,
                     function_call := none, name := none },
        reasoningLog := none } := by
  cases allowCall with
  | false => simp [chatParse, optTruthy]
  | true =>
    have hms : markerScan answer = (none, none) := by
      unfold markerScan
      cases hf : pyFind answer fcMarker with
      | none => rfl
      | some j => simp only [hmarker j hf]
    have hws : wholeScan answer = none := by
      unfold wholeScan
      rw [hwhole]
    simp [chatParse, hms, hws, optTruthy]

/-- Witness for C2 at a concrete malformed-marker answer. -/
theorem c2_witness :
    chatParse true "oops \x7b\"function_call\": \x7b" =
      { message := { role := "assistant",
                     content := some "oops \x7b\"function_call\": \x7b",
                     function_call := none, name := none },
        reasoningLog := none } := by
  apply c2_fallthrough_verbatim
  · intro j hj
    have h5 : pyFind "oops \x7b\"function_call\": \x7b" fcMarker = some 5 := rfl
    rw [h5] at hj
    cases hj
    rfl
  · rfl

/-- Concrete provider used by witnesses. -/
def demoProv : Provider :=
  { readResource := fun u => { contents := [{ text := "RES:" ++ u }] },
    getPrompt := fun n => { text := some ("PROMPT:" ++ n), repr := "PR" },
    callTool := fun _ _ => { content := some "hello" } }

/-- Concrete registry used by witnesses. -/
def demoReg : Registry :=
  { tools := [], resources := [{ name := "beta", description := "d", uri := "mem:beta" }],
    prompts := [] }

/-- Claim C5: a string arguments field is parsed again; an empty string or
a failed parse, an absent field, and any non-string non-mapping value all
default to an empty mapping; and whenever the call intent carries a string
name the dispatch still succeeds, so argument decoding never aborts the
turn. -/
theorem c5_argument_normalization :
    (∀ (s : String) (kvs2 : List (String × Json)), s ≠ "" →
      json_loads s = some (Json.obj kvs2) → normalizeArgs (Json.str s) = Json.obj kvs2)
    ∧ (∀ s : String, s = "" ∨ json_loads s = none → normalizeArgs (Json.str s) = Json.obj [])
    ∧ (∀ kvs : List (String × Json), lookupLast kvs "arguments" = none →
        normalizeArgs ((lookupLast kvs "arguments").getD (Json.obj [])) = Json.obj [])
    ∧ (∀ v : Json, v.isStr = false → v.isObj = false → normalizeArgs v = Json.obj [])
    ∧ (∀ (reg : Registry) (prov : Provider) (kvs : List (String × Json)) (n : String),
        lookupLast kvs "name" = some (Json.str n) →
        ∃ out, dispatchIntent reg prov (Json.obj kvs) = Except.ok out) := by
  refine ⟨?_, ?_, ?_, ?_, ?_⟩
  · intro s kvs2 hne hl
    simp [normalizeArgs, hne, hl]
  · intro s h
    rcases h with h | h
    · subst h; simp [normalizeArgs]
    · by_cases hs : s = "" <;> simp [normalizeArgs, hs, h]
  · intro kvs h
    rw [h]
    rfl
  · intro v h1 h2
    cases v <;> simp_all [normalizeArgs, Json.isStr, Json.isObj]
  · intro reg prov kvs n hn
    cases hb1 : pyStartsWith n "get_resource_" with
    | true =>
      cases hf : reg.resources.find? (fun r => r.name == stripResourceName n) with
      | none => exact ⟨_, by simp only [dispatchIntent, hn]; simp [hb1, hf]; rfl⟩
      | some r => exact ⟨_, by simp only [dispatchIntent, hn]; simp [hb1, hf]; rfl⟩
    | false =>
      cases hb2 : pyStartsWith n "use_prompt_" with
      | true => exact ⟨_, by simp only [dispatchIntent, hn]; simp [hb1, hb2]; rfl⟩
      | false => exact ⟨_, by simp only [dispatchIntent, hn]; simp [hb1, hb2]; rfl⟩

/-- Witness for C5: a malformed argument string decodes to the empty
mapping and the call still dispatches. -/
theorem c5_witness :
    normalizeArgs (Json.str "notjson") = Json.obj []
    ∧ ∃ out, dispatchIntent demoReg demoProv
        (Json.obj [("name", Json.str "echo"), ("arguments", Json.str "notjson")]) =
        Except.ok out :=
  ⟨c5_argument_normalization.2.1 "notjson" (Or.inr rfl),
   c5_argument_normalization.2.2.2.2 demoReg demoProv
     [("name", Json.str "echo"), ("arguments", Json.str "notjson")] "echo" rfl⟩

/-- Claim C6: a call intent named with the resource prefix whose stripped
name matches no registry resource dispatches to a not-found message, makes
no provider call, and raises no exception. -/
theorem c6_resource_not_found (reg : Registry) (prov : Provider)
    (kvs : List (String × Json)) (fnName : String)
    (hname : lookupLast kvs "name" = some (Json.str fnName))
    (hpre : pyStartsWith fnName "get_resource_" = true)
    (hmiss : ∀ r ∈ reg.resources, r.name ≠ stripResourceName fnName) :
    dispatchIntent reg prov (Json.obj kvs) =
      Except.ok { fnName := fnName,
                  resultContent := "Resource '" ++ stripResourceName fnName ++ "' not found.",
                  calls := [],
                  appended := mkFnMsg fnName
                    ("Resource '" ++ stripResourceName fnName ++ "' not found.") } := by
  have hf : reg.resources.find? (fun r => r.name == stripResourceName fnName) = none := by
    rw [List.find?_eq_none]
    intro r hr
    simp only [beq_iff_eq]
    exact hmiss r hr
  simp [dispatchIntent, hname, hpre, hf]

/-- Witness for C6: get_resource_alpha against a registry holding only the
resource beta. -/
theorem c6_witness :
    dispatchIntent demoReg demoProv (Json.obj [("name", Json.str "get_resource_alpha")]) =
      Except.ok { fnName := "get_resource_alpha",
                  resultContent := "Resource '" ++ stripResourceName "get_resource_alpha" ++ "' not found.",
                  calls := [],
                  appended := mkFnMsg "get_resource_alpha"
                    ("Resource '" ++ stripResourceName "get_resource_alpha" ++ "' not found.") } :=
  c6_resource_not_found demoReg demoProv _ "get_resource_alpha" rfl (by decide) (by decide)

/-- Claim C9: a call intent mapping reaching dispatch without the key
"name" raises (the None name is given to startswith) instead of
recovering or producing a result message. -/
theorem c9_missing_name_raises (reg : Registry) (prov : Provider)
    (kvs : List (String × Json))
    (hname : lookupLast kvs "name" = none) (_hne : kvs ≠ []) :
    dispatchIntent reg prov (Json.obj kvs) = Except.error attrErrStartswith := by
  simp [dispatchIntent, hname]

/-- Witness for C9 at a mapping carrying only arguments. -/
theorem c9_witness :
    dispatchIntent demoReg demoProv (Json.obj [("arguments", Json.obj [])]) =
      Except.error attrErrStartswith :=
  c9_missing_name_raises demoReg demoProv [("arguments", Json.obj [])] rfl (List.cons_ne_nil _ _)

/-- Claim C8 (amended): every successful dispatch appends a function-role
message whose content is the normalized textual payload followed by the
fixed natural-language instruction suffix (not the payload alone). -/
theorem c8_result_message_suffix (reg : Registry) (prov : Provider)
    (intent : Json) (out : DispatchOut)
    (h : dispatchIntent reg prov intent = Except.ok out) :
    out.appended = { role := "function",
                     content := some (out.resultContent ++ resultSuffix),
                     function_call := none, name := some out.fnName } := by
  cases intent
  case obj kvs =>
    simp only [dispatchIntent] at h
    split at h
    · split at h
      · split at h
        · injection h with h2
          subst h2
          rfl
        · injection h with h2
          subst h2
          rfl
      · split at h
        · injection h with h2
          subst h2
          rfl
        · injection h with h2
          subst h2
          rfl
    · exact Except.noConfusion h
  all_goals (simp only [dispatchIntent] at h; exact Except.noConfusion h)

/-- Counterexample to C8 as stated: a tool dispatch returning "hello"
appends a message whose content is not the payload alone. -/
theorem c8_counterexample :
    dispatchIntent demoReg demoProv
        (Json.obj [("name", Json.str "echo"), ("arguments", Json.obj [])]) =
      Except.ok { fnName := "echo", resultContent := "hello",
                  calls := [ProviderCall.callTool "echo" (Json.obj [])],
                  appended := mkFnMsg "echo" "hello" }
    ∧ (mkFnMsg "echo" "hello").content ≠ some "hello" :=
  ⟨rfl, by decide⟩

/-- Witness for C8 at the concrete tool dispatch. -/
theorem c8_witness :
    ({ fnName := "echo", resultContent := "hello",
       calls := [ProviderCall.callTool "echo" (Json.obj [])],
       appended := mkFnMsg "echo" "hello" } : DispatchOut).appended =
      { role := "function", content := some ("hello" ++ resultSuffix),
        function_call := none, name := some "echo" } :=
  c8_result_message_suffix demoReg demoProv
    (Json.obj [("name", Json.str "echo"), ("arguments", Json.obj [])]) _ rfl

/-- Claim C7 (amended): a non-200 completion response fails with an
exception whose message carries the status code; the raw body is written
to the error log rather than carried on the exception; the failure is not
retried and surfaces to the caller. -/
theorem c7_backend_error_logs_body (functionCall : String) (resp : HttpResponse)
    (h : resp.status ≠ 200) :
    labChatCompletion functionCall resp =
      (Except.error ("LabLLM error: " ++ toString resp.status),
       ["LabLLM API error: " ++ resp.text]) := by
  simp [labChatCompletion, h]

/-- Counterexample to C7 as stated: at status 500 with body "boom" the
raised error carries the status but does not contain the body. -/
theorem c7_counterexample :
    (labChatCompletion "auto" { status := 500, text := "boom" }).1 =
      Except.error "LabLLM error: 500"
    ∧ strContains "LabLLM error: 500" "boom" = false :=
  ⟨rfl, rfl⟩

/-- Witness for C7 at status 500. -/
theorem c7_witness :
    labChatCompletion "auto" { status := 500, text := "boom" } =
      (Except.error ("LabLLM error: " ++ toString 500),
       ["LabLLM API error: " ++ "boom"]) :=
  c7_backend_error_logs_body "auto" { status := 500, text := "boom" } (by decide)

lemma replaceAux_length_le (old : List Char) :
    ∀ (fuel : Nat) (s : List Char), (replaceAux old [] fuel s).length ≤ s.length := by
  intro fuel
  induction fuel with
  | zero => intro s; simp [replaceAux]
  | succ n ih =>
    intro s
    cases s with
    | nil => simp [replaceAux]
    | cons c t =>
      simp only [replaceAux]
      by_cases hm : (old.isPrefixOf (c :: t) && !old.isEmpty) = true
      · rw [if_pos hm]
        simp only [List.nil_append]
        have h1 := ih (List.drop old.length (c :: t))
        have h2 : (List.drop old.length (c :: t)).length ≤ (c :: t).length := by
          rw [List.length_drop]; omega
        exact le_trans h1 h2
      · rw [if_neg hm]
        simp only [List.length_cons]
        exact Nat.succ_le_succ (ih t)

lemma replaceAux_length_lt (old : List Char) (hold : old ≠ []) :
    ∀ (fuel : Nat) (s : List Char), s.length ≤ fuel →
      (∃ i, old.isPrefixOf (s.drop i) = true) →
      (replaceAux old [] fuel s).length + old.length ≤ s.length := by
  intro fuel
  induction fuel with
  | zero =>
    intro s hf hocc
    have hs : s = [] := List.length_eq_zero.1 (Nat.le_zero.1 hf)
    subst hs
    obtain ⟨i, hi⟩ := hocc
    rw [List.drop_nil] at hi
    cases old with
    | nil => exact absurd rfl hold
    | cons a as => exact absurd hi (by simp [List.isPrefixOf])
  | succ n ih =>
    intro s hf hocc
    cases s with
    | nil =>
      obtain ⟨i, hi⟩ := hocc
      rw [List.drop_nil] at hi
      cases old with
      | nil => exact absurd rfl hold
      | cons a as => exact absurd hi (by simp [List.isPrefixOf])
    | cons c t =>
      simp only [replaceAux]
      by_cases hm : old.isPrefixOf (c :: t) = true
      · have hcond : (old.isPrefixOf (c :: t) && !old.isEmpty) = true := by
          simp [hm, List.isEmpty_iff, hold]
        rw [if_pos hcond]
        simp only [List.nil_append]
        have h1 := replaceAux_length_le old n (List.drop old.length (c :: t))
        have h2 : old.length ≤ (c :: t).length :=
          (( List.isPrefixOf_iff_prefix).1 hm).length_le
        rw [List.length_drop] at h1
        simp only [List.length_cons] at h1 h2 ⊢
        omega
      · have hcond : ¬ ((old.isPrefixOf (c :: t) && !old.isEmpty) = true) := by
          simp only [Bool.and_eq_true]
          intro hand
          exact hm hand.1
        rw [if_neg hcond]
        obtain ⟨i, hi⟩ := hocc
        have hocc2 : ∃ i2, old.isPrefixOf (t.drop i2) = true := by
          cases i with
          | zero => rw [List.drop_zero] at hi; exact absurd hi hm
          | succ i2 => exact ⟨i2, by simpa using hi⟩
        have hflen : t.length ≤ n := by
          simp only [List.length_cons] at hf; omega
        have hrec := ih t hflen hocc2
        simp only [List.length_cons]
        omega

lemma replaceAux_cons_self (old s : List Char) (fuel : Nat) (hold : old ≠ []) :
    replaceAux old [] (fuel + 1) (old ++ s) = replaceAux old [] fuel s := by
  cases old with
  | nil => exact absurd rfl hold
  | cons o os =>
    show replaceAux (o :: os) [] (fuel + 1) (o :: (os ++ s)) = _
    simp only [replaceAux]
    have hm : ((o :: os).isPrefixOf (o :: (os ++ s)) && !(o :: os).isEmpty) = true := by
      rw [Bool.and_eq_true]
      constructor
      · rw [ List.isPrefixOf_iff_prefix]
        rw [← List.cons_append]
        exact List.prefix_append _ _
      · rfl
    rw [if_pos hm]
    simp only [List.nil_append]
    congr 1
    show List.drop (o :: os).length (o :: (os ++ s)) = s
    rw [← List.cons_append, List.drop_left]

/-- Replacing every occurrence of a non-empty pre in pre ++ n changes the
string whenever n itself still contains pre: at least two occurrences are
removed, so the result is strictly shorter than n. -/
lemma pyReplace_all_occurrences (pre n : String) (hpre : pre.data ≠ [])
    (hocc : occursIn pre n) : pyReplace (pre ++ n) pre "" ≠ n := by
  intro heq
  have hdata : (pyReplace (pre ++ n) pre "").data = n.data := congrArg String.data heq
  have hrep : (pyReplace (pre ++ n) pre "").data
      = replaceAux pre.data [] (pre.data.length + n.data.length) (pre.data ++ n.data) := by
    show replaceAux pre.data ([] : List Char) (pre ++ n).data.length (pre ++ n).data = _
    rw [String.data_append, List.length_append]
  obtain ⟨o, os, hpo⟩ : ∃ o os, pre.data = o :: os := by
    cases hp : pre.data with
    | nil => exact absurd hp hpre
    | cons o os => exact ⟨o, os, rfl⟩
  have hF : pre.data.length + n.data.length = (os.length + n.data.length) + 1 := by
    rw [hpo]
    simp only [List.length_cons]
    omega
  have hmain : replaceAux pre.data [] ((os.length + n.data.length) + 1) (pre.data ++ n.data)
      = n.data := by
    rw [← hF, ← hrep]
    exact hdata
  rw [replaceAux_cons_self pre.data n.data _ hpre] at hmain
  have hlen : (replaceAux pre.data [] (os.length + n.data.length) n.data).length
      = n.data.length := congrArg List.length hmain
  obtain ⟨i, hi⟩ := hocc
  have hlt := replaceAux_length_lt pre.data hpre (os.length + n.data.length) n.data
    (Nat.le_add_left _ _) ⟨i, hi⟩
  have hplen : 0 < pre.data.length := by rw [hpo]; simp
  omega

/-- Claim C10: prefix stripping during dispatch removes every occurrence
of the prefix substring, so whenever the suffix n itself contains the
prefix, the name used for the registry lookup (resp. the provider
prompt-fetch) differs from n. -/
theorem c10_replace_strips_all_occurrences (n : String) :
    (occursIn "get_resource_" n → stripResourceName ("get_resource_" ++ n) ≠ n)
    ∧ (occursIn "use_prompt_" n → stripPromptName ("use_prompt_" ++ n) ≠ n) :=
  ⟨fun h => pyReplace_all_occurrences "get_resource_" n (by decide) h,
   fun h => pyReplace_all_occurrences "use_prompt_" n (by decide) h⟩

/-- Witness for C10 at nested prefixed names. -/
theorem c10_witness :
    stripResourceName ("get_resource_" ++ "get_resource_x") ≠ "get_resource_x"
    ∧ stripPromptName ("use_prompt_" ++ "use_prompt_y") ≠ "use_prompt_y" :=
  ⟨(c10_replace_strips_all_occurrences "get_resource_x").1 ⟨0, by decide⟩,
   (c10_replace_strips_all_occurrences "use_prompt_y").2 ⟨0, by decide⟩⟩
